import Mathlib

/-!
# Verification of `qlib/contrib/model/pytorch_lstm_ts.py`

A shallow embedding of the LSTM training/inference wrapper of qlib
(`qlib.contrib.model.pytorch_lstm_ts`) and proofs about it.

Numeric values that flow through the module (losses, metrics, scores) are
IEEE-style floating point values in the source; we embed them as `XVal`,
rationals extended with `nan`, `+inf` and `-inf`, with the IEEE comparison
and arithmetic semantics the source relies on (any comparison with `nan`
is false; `-inf` is the initial best score; means over empty collections
are `nan`).

The numerical framework (torch autodiff, optimizer updates, data loading)
is an external collaborator of the module: it is embedded as an
`EpochOracle`, an abstract per-epoch transition on an abstract parameter
type, exactly at the granularity at which `LSTM.fit` consumes it
(`train_epoch` mutates the parameters, `test_epoch` yields a mean loss and
a mean score).  Everything the Python file itself does — the masked loss
and metric, the epoch/early-stop/best-checkpoint loop, the `_fitted`
guard, the batched inference and the checkpoint path — is translated
directly from the source.
-/

/-- An IEEE-style scalar: `nan`, `+inf`, `-inf`, or a finite value
(embedded as a rational). -/
inductive XVal where
  | nan : XVal
  | pinf : XVal
  | ninf : XVal
  | fin : ℚ → XVal
  deriving DecidableEq, Repr

namespace XVal

/-- `torch.isnan`. -/
def isNan : XVal → Bool
  | nan => true
  | _ => false

/-- `torch.isfinite`. -/
def isFinite : XVal → Bool
  | fin _ => true
  | _ => false

/-- IEEE `>` as used by `val_score > best_score`: any comparison involving
`nan` is false. -/
def gt : XVal → XVal → Bool
  | nan, _ => false
  | _, nan => false
  | pinf, pinf => false
  | pinf, _ => true
  | ninf, _ => false
  | fin _, pinf => false
  | fin _, ninf => true
  | fin a, fin b => decide (b < a)

/-- IEEE subtraction. -/
def sub : XVal → XVal → XVal
  | nan, _ => nan
  | _, nan => nan
  | pinf, pinf => nan
  | pinf, _ => pinf
  | ninf, ninf => nan
  | ninf, _ => ninf
  | fin _, pinf => ninf
  | fin _, ninf => pinf
  | fin a, fin b => fin (a - b)

/-- IEEE addition. -/
def add : XVal → XVal → XVal
  | nan, _ => nan
  | _, nan => nan
  | pinf, ninf => nan
  | ninf, pinf => nan
  | pinf, _ => pinf
  | _, pinf => pinf
  | ninf, _ => ninf
  | _, ninf => ninf
  | fin a, fin b => fin (a + b)

/-- IEEE squaring (`x ** 2`). -/
def sq : XVal → XVal
  | nan => nan
  | pinf => pinf
  | ninf => pinf
  | fin a => fin (a * a)

/-- IEEE negation. -/
def neg : XVal → XVal
  | nan => nan
  | pinf => ninf
  | ninf => pinf
  | fin a => fin (-a)

/-- Division by a (positive) element count, for means. -/
def divNat : XVal → Nat → XVal
  | nan, _ => nan
  | pinf, _ => pinf
  | ninf, _ => ninf
  | fin a, n => fin (a / (n : ℚ))

end XVal

/-- `torch.mean` over a 1-d tensor: `nan` on the empty tensor, otherwise
the sum divided by the length. -/
def xmean (l : List XVal) : XVal :=
  if l.isEmpty then XVal.nan else (l.foldl XVal.add (XVal.fin 0)).divNat l.length

/-- Boolean-mask indexing `t[mask]` of torch: keep the entries whose mask
bit is true. -/
def boolMask {α : Type} : List α → List Bool → List α
  | [], _ => []
  | _, [] => []
  | x :: xs, b :: bs => if b then x :: boolMask xs bs else boolMask xs bs

/-- The Python exceptions the module can raise. -/
inductive PyErr where
  | valueError : String → PyErr
  | notImplementedError : String → PyErr
  | unboundLocalError : PyErr
  | pandasLengthError : PyErr
  deriving DecidableEq, Repr

/-- The state of an `LSTM` wrapper object: the hyper-parameters consulted
by `fit`/`predict`/`loss_fn`/`metric_fn`, the `_fitted` flag, and the live
parameters of `self.LSTM_model` (abstract type `P`). -/
structure LSTMS (P : Type) where
  nEpochs : Nat
  earlyStop : Nat
  batchSize : Nat
  lossName : String
  metricName : String
  optimizerName : String
  fitted : Bool
  params : P
  deriving Repr, DecidableEq

/-- ASCII lower-casing of one character, as Python's `str.lower` acts on
the ASCII range (the only range the optimizer-name comparison exercises). -/
def lowerChar (c : Char) : Char :=
  if 'A' ≤ c ∧ c ≤ 'Z' then Char.ofNat (c.toNat + 32) else c

/-- Python's `optimizer.lower()` on ASCII strings. -/
def strLower (s : String) : String := ⟨s.data.map lowerChar⟩

namespace LSTM

/-- `LSTM.__init__`: stores the hyper-parameters (the optimizer name
lower-cased), builds the model with fresh parameters `p0`, accepts the
optimizers `adam` and `gd` and raises `NotImplementedError` for any other
name, and clears the `_fitted` flag.  The loss name is stored unchecked. -/
def init {P : Type} (p0 : P) (nEpochs earlyStop batchSize : Nat)
    (lossName metricName optimizerName : String) : Except PyErr (LSTMS P) :=
  if strLower optimizerName = "adam" then
    Except.ok ⟨nEpochs, earlyStop, batchSize, lossName, metricName,
      strLower optimizerName, false, p0⟩
  else if strLower optimizerName = "gd" then
    Except.ok ⟨nEpochs, earlyStop, batchSize, lossName, metricName,
      strLower optimizerName, false, p0⟩
  else
    Except.error (PyErr.notImplementedError
      ("optimizer " ++ optimizerName ++ " is not supported!"))

/-- `LSTM.mse`: `torch.mean((pred - label) ** 2)` over two equal-length
tensors. -/
def mseV (pred label : List XVal) : XVal :=
  xmean ((pred.zip label).map fun pl => (XVal.sub pl.1 pl.2).sq)

/-- `LSTM.loss_fn`: mask out the entries whose label is `nan`, then apply
the configured loss; any loss name other than `"mse"` raises
`ValueError`. -/
def lossF (lossName : String) (pred label : List XVal) : Except PyErr XVal :=
  let mask := label.map fun l => !l.isNan
  if lossName = "mse" then
    Except.ok (mseV (boolMask pred mask) (boolMask label mask))
  else
    Except.error (PyErr.valueError ("unknown loss `" ++ lossName ++ "`"))

/-- `LSTM.metric_fn`: mask down to the entries whose label is finite; for
the default metric (`""` or `"loss"`) return the negated loss; any other
metric name raises `ValueError`. -/
def metricF (lossName metricName : String) (pred label : List XVal) :
    Except PyErr XVal :=
  let mask := label.map XVal.isFinite
  if metricName = "" || metricName = "loss" then
    (lossF lossName (boolMask pred mask) (boolMask label mask)).map XVal.neg
  else
    Except.error (PyErr.valueError ("unknown metric `" ++ metricName ++ "`"))

end LSTM

/-! ## The sequence model (`LSTMModel`)

`nn.LSTM` itself is an external collaborator: we embed it as an abstract
per-sample map from the input sequence (a list of feature vectors over
time) to the sequence of hidden states over time, batched by mapping over
the samples (`batch_first=True`).  `fc_out` is `nn.Linear(hidden_size, 1)`
whose documented semantics is an affine map; `forward` takes the hidden
state of the final time step only (`out[:, -1, :]`), applies `fc_out` and
squeezes to one scalar per sample. -/

/-- Dot product of a weight vector with a hidden-state vector. -/
def dotQ : List ℚ → List ℚ → ℚ
  | [], _ => 0
  | _, [] => 0
  | a :: as', b :: bs => a * b + dotQ as' bs

/-- The `LSTMModel` module: the recurrent collaborator `rnn` and the
weights of the output layer `fc_out`. -/
structure LSTMModel where
  rnn : List (List ℚ) → List (List ℚ)
  fcW : List ℚ
  fcB : ℚ

namespace LSTMModel

/-- The scalar `forward` computes for one sample: `fc_out` applied to the
hidden state of the final time step. -/
def forwardOne (M : LSTMModel) (sample : List (List ℚ)) : ℚ :=
  dotQ M.fcW ((M.rnn sample).getLastD []) + M.fcB

/-- `LSTMModel.forward`: run the recurrent encoder on every sample of the
batch, keep the final time step's hidden state (`out[:, -1, :]`), apply
the linear output layer and squeeze to a scalar per sample. -/
def forward (M : LSTMModel) (x : List (List (List ℚ))) : List ℚ :=
  x.map fun sample => dotQ M.fcW ((M.rnn sample).getLastD []) + M.fcB

end LSTMModel

/-! ## Batching

`DataLoader(dl, batch_size=b, shuffle=False)` yields the samples in order,
grouped into consecutive chunks of size `b` (the last chunk possibly
shorter).  `b = 0` is rejected by torch, so the embedding only chunks for
positive `b`. -/

/-- Split a list into consecutive chunks of size `n` (`n > 0`; the
degenerate `n = 0` returns no chunks). -/
def chunkList {α : Type} (n : Nat) (l : List α) : List (List α) :=
  if _h : n = 0 then []
  else
    match l with
    | [] => []
    | x :: xs => (x :: xs).take n :: chunkList n ((x :: xs).drop n)
termination_by l.length
decreasing_by
  simp only [List.length_drop, List.length_cons]
  omega

namespace LSTM

/-- `LSTM.predict`: raise `ValueError` if the model is not fitted,
otherwise run the model batch by batch over the test samples, concatenate
the per-batch predictions with `np.concatenate`, and build a series
pairing the dataset's index with the predictions (pandas raises when the
lengths differ).  The conversion `toM` reads the current parameters into
the sequence model the predictions are computed with.

Because `forward` ends in `.squeeze()`, a batch holding exactly one sample
yields a zero-dimensional array, and `np.concatenate` raises
`ValueError("zero-dimensional arrays cannot be concatenated")` on it;
`np.concatenate` on an empty list of arrays (empty test set) raises
`ValueError("need at least one array to concatenate")`.  A batch array is
zero-dimensional exactly when its batch has length one, so these two error
paths are checked before the concatenation result is used. -/
def predict {P I : Type} (m : LSTMS P) (toM : P → LSTMModel)
    (testData : List (List (List ℚ))) (index : List I) :
    Except PyErr (List (I × ℚ)) :=
  if !m.fitted then
    Except.error (PyErr.valueError "model is not fitted yet!")
  else
    let batches := chunkList m.batchSize testData
    let preds := batches.map fun b => (toM m.params).forward b
    if preds.isEmpty then
      Except.error (PyErr.valueError "need at least one array to concatenate")
    else if preds.any fun p => p.length == 1 then
      Except.error
        (PyErr.valueError "zero-dimensional arrays cannot be concatenated")
    else if index.length = preds.flatten.length then
      Except.ok (index.zip preds.flatten)
    else
      Except.error PyErr.pandasLengthError

end LSTM

/-! ## The training loop (`LSTM.fit`)

The numerical collaborator is abstracted per epoch: `trainEpoch step p` is
the effect of `self.train_epoch(train_loader)` on the live parameters in
epoch `step` (it may depend on the epoch because the loader reshuffles),
and `testTrain p` / `testValid p` are the `(mean loss, mean score)` pairs
`self.test_epoch` computes on the train and valid loaders from parameters
`p` (evaluation mode is deterministic in the parameters). -/

/-- The external numerical collaborator, at the granularity `fit` uses. -/
structure EpochOracle (P : Type) where
  trainEpoch : Nat → P → P
  testTrain : P → XVal × XVal
  testValid : P → XVal × XVal

/-- The local state of `LSTM.fit` while the epoch loop runs.  `bestParam`
is `none` while the Python local `best_param` is unbound. -/
structure FitState (P : Type) where
  params : P
  stopSteps : Nat
  bestScore : XVal
  bestEpoch : Nat
  bestParam : Option P
  evalsTrain : List XVal
  evalsValid : List XVal

/-- One-for-one embedding of the `for step in range(self.n_epochs)` loop of
`LSTM.fit`, with `fuel` the number of remaining iterations and `step` the
current epoch index: train an epoch, evaluate on both loaders, append the
scores to `evals_result`, then either record a new best (deep copy of the
parameters, counter reset) or bump the early-stop counter and possibly
break. -/
def fitLoop {P : Type} (O : EpochOracle P) (earlyStop : Nat) :
    Nat → Nat → FitState P → FitState P
  | 0, _, s => s
  | fuel + 1, step, s =>
      let p := O.trainEpoch step s.params
      let trainScore := (O.testTrain p).2
      let valScore := (O.testValid p).2
      let s1 : FitState P :=
        { s with
          params := p
          evalsTrain := s.evalsTrain ++ [trainScore]
          evalsValid := s.evalsValid ++ [valScore] }
      if valScore.gt s.bestScore then
        fitLoop O earlyStop fuel (step + 1)
          { s1 with
            bestScore := valScore
            stopSteps := 0
            bestEpoch := step
            bestParam := some p }
      else
        let s2 : FitState P := { s1 with stopSteps := s.stopSteps + 1 }
        if earlyStop ≤ s2.stopSteps then s2
        else fitLoop O earlyStop fuel (step + 1) s2

/-- The hard-coded path `torch.save` writes the checkpoint to
(line 255 of the source; the `save_path` computed from the argument is
never used). -/
def checkpointPath : String :=
  "/home/lewwang/qlib/examples/benchmarks/LSTM/csi300_lstm_ts.pkl"

/-- What a successful `fit` leaves behind: the parameters loaded back into
the live model, the parameters and path handed to `torch.save`, the best
score/epoch, and the contents of `evals_result`. -/
structure FitResult (P : Type) where
  liveParams : P
  savedParams : P
  savedPath : String
  bestScore : XVal
  bestEpoch : Nat
  evalsTrain : List XVal
  evalsValid : List XVal
  deriving DecidableEq

/-- `LSTM.fit`: reset `evals_result["train"]` and `evals_result["valid"]`
to empty lists, set `_fitted`, run the epoch loop from fresh bookkeeping
(`stop_steps = 0`, `best_score = -inf`, `best_epoch = 0`, `best_param`
unbound), then reload the best snapshot into the live model and save it to
the hard-coded checkpoint path.  If no epoch ever improved on `-inf`,
`best_param` is still unbound at line 253 and the call dies with
`UnboundLocalError`.  Returns the updated object state, the final
`evals_result` entries (the dict mutation survives even the error), and
the result or error. -/
def LSTM.fit {P : Type} (O : EpochOracle P) (m : LSTMS P)
    (savePath : Option String) (evalsResult : List XVal × List XVal) :
    LSTMS P × (List XVal × List XVal) × Except PyErr (FitResult P) :=
  let s0 : FitState P :=
    { params := m.params
      stopSteps := 0
      bestScore := XVal.ninf
      bestEpoch := 0
      bestParam := none
      evalsTrain := []
      evalsValid := [] }
  let sF := fitLoop O m.earlyStop m.nEpochs 0 s0
  match sF.bestParam with
  | none =>
      ({ m with fitted := true, params := sF.params },
       (sF.evalsTrain, sF.evalsValid),
       Except.error PyErr.unboundLocalError)
  | some bp =>
      ({ m with fitted := true, params := bp },
       (sF.evalsTrain, sF.evalsValid),
       Except.ok
         { liveParams := bp
           savedParams := bp
           savedPath := checkpointPath
           bestScore := sF.bestScore
           bestEpoch := sF.bestEpoch
           evalsTrain := sF.evalsTrain
           evalsValid := sF.evalsValid })

/-! ## The reference run

Because the collaborator is deterministic in the epoch index and the
parameters, the whole (potential) run is determined by the oracle and the
initial parameters: `paramsAt t` are the live parameters once epochs
`0, …, t-1` have trained, and the per-epoch scores, running best,
early-stop counter and best snapshot follow.  The loop lemma below proves
`fitLoop` tracks these functions exactly. -/

/-- Live parameters after the first `t` epochs have trained. -/
def paramsAt {P : Type} (O : EpochOracle P) (p0 : P) : Nat → P
  | 0 => p0
  | t + 1 => O.trainEpoch t (paramsAt O p0 t)

/-- The train-loader score recorded in epoch `t`. -/
def trainScoreAt {P : Type} (O : EpochOracle P) (p0 : P) (t : Nat) : XVal :=
  (O.testTrain (paramsAt O p0 (t + 1))).2

/-- The validation score recorded in epoch `t`. -/
def valScoreAt {P : Type} (O : EpochOracle P) (p0 : P) (t : Nat) : XVal :=
  (O.testValid (paramsAt O p0 (t + 1))).2

/-- The running best validation score entering epoch `t`
(`-inf` before epoch 0). -/
def bestBefore {P : Type} (O : EpochOracle P) (p0 : P) : Nat → XVal
  | 0 => XVal.ninf
  | t + 1 =>
      if (valScoreAt O p0 t).gt (bestBefore O p0 t) then valScoreAt O p0 t
      else bestBefore O p0 t

/-- Whether epoch `t` strictly improves on the best score seen before it. -/
def improvedAt {P : Type} (O : EpochOracle P) (p0 : P) (t : Nat) : Bool :=
  (valScoreAt O p0 t).gt (bestBefore O p0 t)

/-- The early-stop counter (`stop_steps`) entering epoch `t`: the number
of consecutive epochs just before `t` that failed to improve. -/
def stopBefore {P : Type} (O : EpochOracle P) (p0 : P) : Nat → Nat
  | 0 => 0
  | t + 1 => if improvedAt O p0 t then 0 else stopBefore O p0 t + 1

/-- The `best_epoch` local entering epoch `t` (0 before any improvement). -/
def bestEpochBefore {P : Type} (O : EpochOracle P) (p0 : P) : Nat → Nat
  | 0 => 0
  | t + 1 => if improvedAt O p0 t then t else bestEpochBefore O p0 t

/-- The `best_param` snapshot entering epoch `t` (`none` while unbound). -/
def bestParamBefore {P : Type} (O : EpochOracle P) (p0 : P) : Nat → Option P
  | 0 => none
  | t + 1 =>
      if improvedAt O p0 t then some (paramsAt O p0 (t + 1))
      else bestParamBefore O p0 t

/-- The canonical loop state entering epoch `t`. -/
def stateAt {P : Type} (O : EpochOracle P) (p0 : P) (t : Nat) : FitState P :=
  { params := paramsAt O p0 t
    stopSteps := stopBefore O p0 t
    bestScore := bestBefore O p0 t
    bestEpoch := bestEpochBefore O p0 t
    bestParam := bestParamBefore O p0 t
    evalsTrain := (List.range t).map (trainScoreAt O p0)
    evalsValid := (List.range t).map (valScoreAt O p0) }

/-- Whether the loop breaks at the end of epoch `t`: the epoch did not
improve and the bumped counter reached `early_stop`. -/
def haltedAt {P : Type} (O : EpochOracle P) (p0 : P) (earlyStop t : Nat) :
    Bool :=
  !improvedAt O p0 t && earlyStop ≤ stopBefore O p0 (t + 1)

/-- The epoch index after the loop exits, started at epoch `step` with
`fuel` iterations of budget. -/
def runEndFrom {P : Type} (O : EpochOracle P) (p0 : P) (earlyStop : Nat) :
    Nat → Nat → Nat
  | step, 0 => step
  | step, fuel + 1 =>
      if haltedAt O p0 earlyStop step then step + 1
      else runEndFrom O p0 earlyStop (step + 1) fuel

/-- The number of epochs a `fit` with budget `nEpochs` executes. -/
def epochsRun {P : Type} (O : EpochOracle P) (p0 : P)
    (earlyStop nEpochs : Nat) : Nat :=
  runEndFrom O p0 earlyStop 0 nEpochs

/-! ## Spec-side reference definitions

These follow the wording of the claims, to be compared with the code's
`loss_fn`/`metric_fn`: the mean squared error over the pairs whose label
is not `nan` (resp. whose label is finite). -/

/-- Mean squared error over the entries whose label is not `nan`. -/
def maskedMSE (pred label : List XVal) : XVal :=
  xmean (((pred.zip label).filter fun pl => !pl.2.isNan).map
    fun pl => (XVal.sub pl.1 pl.2).sq)

/-- Mean squared error over the entries whose label is finite. -/
def finiteMaskedMSE (pred label : List XVal) : XVal :=
  xmean (((pred.zip label).filter fun pl => pl.2.isFinite).map
    fun pl => (XVal.sub pl.1 pl.2).sq)

/-! ## Concrete instances used by witnesses -/

/-- The score the demo collaborator reports when the parameter counter
is `p`. -/
def demoScore (p : ℕ) : XVal :=
  [XVal.ninf, XVal.fin 1, XVal.fin 2, XVal.fin 3].getD p XVal.nan

/-- A tiny deterministic collaborator: each epoch bumps the parameter (a
counter) by one, and both evaluation scores are read off the counter. -/
def demoOracle : EpochOracle ℕ :=
  { trainEpoch := fun _ p => p + 1
    testTrain := fun p => (XVal.fin 0, demoScore p)
    testValid := fun p => (XVal.fin 0, demoScore p) }

/-- A collaborator whose validation score is always `nan`. -/
def nanOracle : EpochOracle ℕ :=
  { trainEpoch := fun _ p => p
    testTrain := fun _ => (XVal.nan, XVal.nan)
    testValid := fun _ => (XVal.nan, XVal.nan) }

/-- A small configured model object (3 epochs, early stop 2, fresh). -/
def demoModel : LSTMS ℕ :=
  { nEpochs := 3
    earlyStop := 2
    batchSize := 2
    lossName := "mse"
    metricName := ""
    optimizerName := "adam"
    fitted := false
    params := 0 }

/-- `demoModel` but with validation scores that are always `nan`. -/
def nanModel : LSTMS ℕ :=
  { demoModel with nEpochs := 2, earlyStop := 5 }

/-- What fitting `demoModel` against `demoOracle` produces: every epoch
improves, so the best epoch is the last one. -/
def demoFitResult : FitResult ℕ :=
  { liveParams := 3
    savedParams := 3
    savedPath := checkpointPath
    bestScore := XVal.fin 3
    bestEpoch := 2
    evalsTrain := [XVal.fin 1, XVal.fin 2, XVal.fin 3]
    evalsValid := [XVal.fin 1, XVal.fin 2, XVal.fin 3] }

/-! ### Boolean-mask indexing -/

lemma boolMask_zip_filter {α β : Type} (f : β → Bool) :
    ∀ (xs : List α) (ys : List β), xs.length = ys.length →
      (boolMask xs (ys.map f)).zip (boolMask ys (ys.map f)) =
        (xs.zip ys).filter fun p => f p.2 := by
  intro xs
  induction xs with
  | nil =>
      intro ys h
      cases ys with
      | nil => simp [boolMask]
      | cons y ys => simp at h
  | cons x xs ih =>
      intro ys h
      cases ys with
      | nil => simp at h
      | cons y ys =>
          have h2 : xs.length = ys.length := by simpa using h
          cases hf : f y with
          | true => simp [boolMask, hf, List.filter_cons, ih ys h2]
          | false => simp [boolMask, hf, List.filter_cons, ih ys h2]

lemma boolMask_length {α β : Type} (f : β → Bool) :
    ∀ (xs : List α) (ys : List β), xs.length = ys.length →
      (boolMask xs (ys.map f)).length = (boolMask ys (ys.map f)).length := by
  intro xs
  induction xs with
  | nil =>
      intro ys h
      cases ys with
      | nil => simp [boolMask]
      | cons y ys => simp at h
  | cons x xs ih =>
      intro ys h
      cases ys with
      | nil => simp at h
      | cons y ys =>
          have h2 : xs.length = ys.length := by simpa using h
          cases hf : f y with
          | true => simp [boolMask, hf, ih ys h2]
          | false => simp [boolMask, hf, ih ys h2]

lemma mem_boolMask_map {β : Type} (f : β → Bool) :
    ∀ (ys : List β) y, y ∈ boolMask ys (ys.map f) → f y = true := by
  intro ys
  induction ys with
  | nil => intro y hy; simp [boolMask] at hy
  | cons y0 ys ih =>
      intro y hy
      cases hf : f y0 with
      | true =>
          simp only [List.map_cons, boolMask, hf, if_true] at hy
          rcases List.mem_cons.mp hy with heq | hmem
          · subst heq; exact hf
          · exact ih y hmem
      | false =>
          simp only [List.map_cons, boolMask, hf, Bool.false_eq_true,
            if_false] at hy
          exact ih y hy

lemma boolMask_all_true {α : Type} :
    ∀ (xs : List α) (ms : List Bool), (∀ b ∈ ms, b = true) →
      ms.length = xs.length → boolMask xs ms = xs := by
  intro xs
  induction xs with
  | nil => intro ms _ _; cases ms <;> simp [boolMask]
  | cons x xs ih =>
      intro ms hall hlen
      cases ms with
      | nil => simp at hlen
      | cons b ms =>
          have hb : b = true := hall b (List.mem_cons_self b ms)
          subst hb
          simp only [boolMask, if_true]
          rw [ih ms (fun b hb => hall b (List.mem_cons_of_mem _ hb))
            (by simpa using hlen)]

/-! ### Chunking -/

lemma chunkList_nil {α : Type} (n : Nat) : chunkList n ([] : List α) = [] := by
  rw [chunkList]
  by_cases h : n = 0
  · rw [dif_pos h]
  · rw [dif_neg h]

lemma chunkList_cons {α : Type} (n : Nat) (hn : n ≠ 0) (x : α) (xs : List α) :
    chunkList n (x :: xs) =
      (x :: xs).take n :: chunkList n ((x :: xs).drop n) := by
  rw [chunkList]
  rw [dif_neg hn]

lemma chunkList_ne_nil {α : Type} (n : Nat) (hn : n ≠ 0) (l : List α)
    (hl : l ≠ []) : chunkList n l ≠ [] := by
  cases l with
  | nil => exact absurd rfl hl
  | cons x xs => rw [chunkList_cons n hn]; simp

/-! ### Chunked mapping is plain mapping -/

lemma chunkList_map_flatten {α β : Type} (f : α → β) (n : Nat) (hn : 0 < n) :
    ∀ (l : List α), ((chunkList n l).map (List.map f)).flatten = l.map f := by
  have H : ∀ (k : Nat) (l : List α), l.length ≤ k →
      ((chunkList n l).map (List.map f)).flatten = l.map f := by
    intro k
    induction k with
    | zero =>
        intro l hl
        have hnil : l = [] := List.length_eq_zero.mp (Nat.le_zero.mp hl)
        subst hnil
        rw [chunkList]
        simp [Nat.pos_iff_ne_zero.mp hn]
    | succ k ih =>
        intro l hl
        cases l with
        | nil =>
            rw [chunkList]
            simp [Nat.pos_iff_ne_zero.mp hn]
        | cons x xs =>
            have hl2 : xs.length ≤ k := by simpa using hl
            rw [chunkList]
            rw [dif_neg (Nat.pos_iff_ne_zero.mp hn)]
            simp only [List.map_cons, List.flatten_cons]
            rw [ih ((x :: xs).drop n)
              (by simp only [List.length_drop, List.length_cons]; omega)]
            rw [← List.map_append, List.take_append_drop]
            simp
  exact fun l => H l.length l le_rfl

/-! ### The loop tracks the reference run -/

lemma fitLoop_succ_step {P : Type} (O : EpochOracle P) (p0 : P)
    (earlyStop fuel step : Nat) :
    fitLoop O earlyStop (fuel + 1) step (stateAt O p0 step) =
      if haltedAt O p0 earlyStop step then stateAt O p0 (step + 1)
      else fitLoop O earlyStop fuel (step + 1) (stateAt O p0 (step + 1)) := by
  have hpar : O.trainEpoch step (paramsAt O p0 step) = paramsAt O p0 (step + 1) :=
    rfl
  have hval2 : (O.testValid (paramsAt O p0 (step + 1))).2 = valScoreAt O p0 step :=
    rfl
  have htrain2 : (O.testTrain (paramsAt O p0 (step + 1))).2
      = trainScoreAt O p0 step := rfl
  cases himp : improvedAt O p0 step with
  | true =>
      have himp2 : (valScoreAt O p0 step).gt (bestBefore O p0 step) = true :=
        himp
      have hhalt : haltedAt O p0 earlyStop step = false := by
        simp [haltedAt, himp]
      rw [hhalt]
      simp only [Bool.false_eq_true, if_false]
      simp only [fitLoop, stateAt]
      simp [hpar, hval2, htrain2, himp2, himp, stopBefore, bestBefore,
        bestEpochBefore, bestParamBefore, List.range_succ]
  | false =>
      have himp2 : (valScoreAt O p0 step).gt (bestBefore O p0 step) = false :=
        himp
      by_cases hle : earlyStop ≤ stopBefore O p0 step + 1
      · have hhalt : haltedAt O p0 earlyStop step = true := by
          simp [haltedAt, himp, stopBefore, hle]
        rw [hhalt]
        simp only [if_true]
        simp only [fitLoop, stateAt]
        simp [hpar, hval2, htrain2, himp2, himp, hle, stopBefore, bestBefore,
          bestEpochBefore, bestParamBefore, List.range_succ]
      · have hhalt : haltedAt O p0 earlyStop step = false := by
          simp [haltedAt, himp, stopBefore, hle]
        rw [hhalt]
        simp only [Bool.false_eq_true, if_false]
        simp only [fitLoop, stateAt]
        simp [hpar, hval2, htrain2, himp2, himp, hle, stopBefore, bestBefore,
          bestEpochBefore, bestParamBefore, List.range_succ]

/-- The epoch loop, started at the canonical state for epoch `step`, ends
in the canonical state for the epoch index `runEndFrom` computes. -/
lemma fitLoop_stateAt {P : Type} (O : EpochOracle P) (p0 : P)
    (earlyStop : Nat) :
    ∀ fuel step,
      fitLoop O earlyStop fuel step (stateAt O p0 step) =
        stateAt O p0 (runEndFrom O p0 earlyStop step fuel) := by
  intro fuel
  induction fuel with
  | zero => intro step; rfl
  | succ fuel ih =>
      intro step
      rw [fitLoop_succ_step O p0 earlyStop fuel step]
      rw [runEndFrom]
      by_cases h : haltedAt O p0 earlyStop step = true
      · rw [if_pos h, if_pos h]
      · rw [if_neg h, if_neg h, ih]

/-- `LSTM.fit`, rewritten through the reference run: the loop executes
`epochsRun` epochs, the `evals_result` entries are the per-epoch scores in
order, and the outcome depends on whether `best_param` was ever bound. -/
lemma fit_unfold {P : Type} (O : EpochOracle P) (m : LSTMS P)
    (sp : Option String) (e : List XVal × List XVal) :
    LSTM.fit O m sp e =
      (match bestParamBefore O m.params
          (epochsRun O m.params m.earlyStop m.nEpochs) with
       | none =>
           ({ m with
                fitted := true
                params := paramsAt O m.params
                  (epochsRun O m.params m.earlyStop m.nEpochs) },
            ((List.range (epochsRun O m.params m.earlyStop m.nEpochs)).map
               (trainScoreAt O m.params),
             (List.range (epochsRun O m.params m.earlyStop m.nEpochs)).map
               (valScoreAt O m.params)),
            Except.error PyErr.unboundLocalError)
       | some bp =>
           ({ m with fitted := true, params := bp },
            ((List.range (epochsRun O m.params m.earlyStop m.nEpochs)).map
               (trainScoreAt O m.params),
             (List.range (epochsRun O m.params m.earlyStop m.nEpochs)).map
               (valScoreAt O m.params)),
            Except.ok
              { liveParams := bp
                savedParams := bp
                savedPath := checkpointPath
                bestScore := bestBefore O m.params
                  (epochsRun O m.params m.earlyStop m.nEpochs)
                bestEpoch := bestEpochBefore O m.params
                  (epochsRun O m.params m.earlyStop m.nEpochs)
                evalsTrain :=
                  (List.range (epochsRun O m.params m.earlyStop m.nEpochs)).map
                    (trainScoreAt O m.params)
                evalsValid :=
                  (List.range (epochsRun O m.params m.earlyStop m.nEpochs)).map
                    (valScoreAt O m.params) })) := by
  have h0 : ({ params := m.params
               stopSteps := 0
               bestScore := XVal.ninf
               bestEpoch := 0
               bestParam := none
               evalsTrain := []
               evalsValid := [] } : FitState P) = stateAt O m.params 0 := rfl
  unfold LSTM.fit
  rw [h0]
  simp only [fitLoop_stateAt]
  rfl

/-! ### Bounds on the exit epoch -/

lemma le_runEndFrom {P : Type} (O : EpochOracle P) (p0 : P) (es : Nat) :
    ∀ fuel step, step ≤ runEndFrom O p0 es step fuel := by
  intro fuel
  induction fuel with
  | zero => intro step; simp [runEndFrom]
  | succ fuel ih =>
      intro step
      rw [runEndFrom]
      by_cases h : haltedAt O p0 es step = true
      · rw [if_pos h]; omega
      · rw [if_neg h]
        exact Nat.le_trans (Nat.le_succ step) (ih (step + 1))

lemma runEndFrom_le {P : Type} (O : EpochOracle P) (p0 : P) (es : Nat) :
    ∀ fuel step, runEndFrom O p0 es step fuel ≤ step + fuel := by
  intro fuel
  induction fuel with
  | zero => intro step; simp [runEndFrom]
  | succ fuel ih =>
      intro step
      rw [runEndFrom]
      by_cases h : haltedAt O p0 es step = true
      · rw [if_pos h]; omega
      · rw [if_neg h]
        have := ih (step + 1)
        omega

lemma runEndFrom_not_halted {P : Type} (O : EpochOracle P) (p0 : P)
    (es : Nat) :
    ∀ fuel step t, step ≤ t → t + 1 < runEndFrom O p0 es step fuel →
      haltedAt O p0 es t = false := by
  intro fuel
  induction fuel with
  | zero =>
      intro step t hst hlt
      rw [runEndFrom] at hlt
      omega
  | succ fuel ih =>
      intro step t hst hlt
      rw [runEndFrom] at hlt
      by_cases h : haltedAt O p0 es step = true
      · rw [if_pos h] at hlt; omega
      · rw [if_neg h] at hlt
        rcases Nat.eq_or_lt_of_le hst with heq | hlt2
        · subst heq; exact Bool.eq_false_iff.mpr h
        · exact ih (step + 1) t hlt2 hlt

lemma runEndFrom_last {P : Type} (O : EpochOracle P) (p0 : P) (es : Nat) :
    ∀ fuel step, runEndFrom O p0 es step fuel = step + fuel ∨
      (step < runEndFrom O p0 es step fuel ∧
        haltedAt O p0 es (runEndFrom O p0 es step fuel - 1) = true) := by
  intro fuel
  induction fuel with
  | zero => intro step; left; simp [runEndFrom]
  | succ fuel ih =>
      intro step
      rw [runEndFrom]
      by_cases h : haltedAt O p0 es step = true
      · rw [if_pos h]
        right
        constructor
        · omega
        · simpa using h
      · rw [if_neg h]
        rcases ih (step + 1) with heq | ⟨hlt, hh⟩
        · left; omega
        · right
          exact ⟨Nat.lt_of_succ_le (Nat.le_of_lt hlt), hh⟩

/-! ### Order facts about IEEE `>` and the running best -/

lemma XVal.gt_irrefl (a : XVal) : XVal.gt a a = false := by
  cases a <;> simp [XVal.gt]

lemma XVal.gt_mono (a b c : XVal) (h1 : XVal.gt a b = false)
    (h2 : XVal.gt c b = true) : XVal.gt a c = false := by
  cases a <;> cases b <;> cases c <;> simp_all [XVal.gt] <;> linarith

/-- No recorded validation score ever beats the running best that has
absorbed it. -/
lemma valScore_not_gt_bestBefore {P : Type} (O : EpochOracle P) (p0 : P) :
    ∀ t u, u < t → (valScoreAt O p0 u).gt (bestBefore O p0 t) = false := by
  intro t
  induction t with
  | zero => intro u hu; omega
  | succ t ih =>
      intro u hu
      by_cases himp : (valScoreAt O p0 t).gt (bestBefore O p0 t) = true
      · have hb : bestBefore O p0 (t + 1) = valScoreAt O p0 t := by
          simp [bestBefore, himp]
        rw [hb]
        rcases Nat.lt_succ_iff_lt_or_eq.mp hu with hu2 | hu2
        · exact XVal.gt_mono _ _ _ (ih u hu2) himp
        · subst hu2; exact XVal.gt_irrefl _
      · have himp2 : (valScoreAt O p0 t).gt (bestBefore O p0 t) = false :=
          Bool.eq_false_iff.mpr himp
        have hb : bestBefore O p0 (t + 1) = bestBefore O p0 t := by
          simp [bestBefore, himp2]
        rw [hb]
        rcases Nat.lt_succ_iff_lt_or_eq.mp hu with hu2 | hu2
        · exact ih u hu2
        · subst hu2; exact himp2

/-- When `best_param` is bound, it is the deep copy taken right after the
training pass of `best_epoch`, an executed epoch whose validation score is
the running best. -/
lemma bestParamBefore_spec {P : Type} (O : EpochOracle P) (p0 : P) :
    ∀ t bp, bestParamBefore O p0 t = some bp →
      bp = paramsAt O p0 (bestEpochBefore O p0 t + 1) ∧
      bestEpochBefore O p0 t < t ∧
      bestBefore O p0 t = valScoreAt O p0 (bestEpochBefore O p0 t) := by
  intro t
  induction t with
  | zero => intro bp h; simp [bestParamBefore] at h
  | succ t ih =>
      intro bp h
      by_cases himp : improvedAt O p0 t = true
      · rw [bestParamBefore, if_pos himp] at h
        rw [bestEpochBefore, if_pos himp, bestBefore]
        rw [show ((valScoreAt O p0 t).gt (bestBefore O p0 t)) = improvedAt O p0 t
              from rfl, himp]
        refine ⟨?_, by omega, by simp⟩
        exact (Option.some.injEq _ _ ▸ h).symm
      · have himp2 : improvedAt O p0 t = false := Bool.eq_false_iff.mpr himp
        rw [bestParamBefore, if_neg himp] at h
        rw [bestEpochBefore, if_neg himp, bestBefore]
        rw [show ((valScoreAt O p0 t).gt (bestBefore O p0 t)) = improvedAt O p0 t
              from rfl, himp2]
        rcases ih bp h with ⟨h1, h2, h3⟩
        exact ⟨h1, by omega, by simpa using h3⟩

/-- While no epoch has beaten `-inf`, the running best stays `-inf` and
`best_param` stays unbound. -/
lemma bestParamBefore_none {P : Type} (O : EpochOracle P) (p0 : P) :
    ∀ t, (∀ u, u < t → (valScoreAt O p0 u).gt XVal.ninf = false) →
      bestBefore O p0 t = XVal.ninf ∧ bestParamBefore O p0 t = none := by
  intro t
  induction t with
  | zero => intro _; exact ⟨rfl, rfl⟩
  | succ t ih =>
      intro h
      rcases ih (fun u hu => h u (Nat.lt_succ_of_lt hu)) with ⟨hb, hp⟩
      have himp : improvedAt O p0 t = false := by
        rw [improvedAt, hb]
        exact h t (Nat.lt_succ_self t)
      constructor
      · rw [bestBefore,
          show ((valScoreAt O p0 t).gt (bestBefore O p0 t)) = improvedAt O p0 t
            from rfl, himp]
        simpa using hb
      · rw [bestParamBefore, if_neg (by simp [himp])]
        exact hp

/-- With a positive `early_stop` budget, the loop breaks at the end of
epoch `t` exactly when the bumped non-improvement counter reaches it. -/
lemma haltedAt_eq {P : Type} (O : EpochOracle P) (p0 : P) {es : Nat}
    (h : 0 < es) (t : Nat) :
    haltedAt O p0 es t = decide (es ≤ stopBefore O p0 (t + 1)) := by
  cases himp : improvedAt O p0 t with
  | true =>
      have hs : stopBefore O p0 (t + 1) = 0 := by simp [stopBefore, himp]
      simp [haltedAt, himp, hs]
      omega
  | false =>
      have hs : stopBefore O p0 (t + 1) = stopBefore O p0 t + 1 := by
        simp [stopBefore, himp]
      simp [haltedAt, himp, hs]

/-! ## The claims -/

/-- **C3.** Configuring the model with a loss name other than `"mse"`, or
an optimizer name other than the supported `"adam"`/`"gd"`, fails with an
unsupported-configuration error: `NotImplementedError` for the optimizer
at construction, `ValueError` for the loss when the loss function is
evaluated. -/
theorem LSTM.unsupported_config_errors {P : Type} (p0 : P)
    (nEpochs earlyStop batchSize : Nat)
    (lossName metricName optimizerName : String) (pred label : List XVal)
    (hopt1 : strLower optimizerName ≠ "adam")
    (hopt2 : strLower optimizerName ≠ "gd") (hloss : lossName ≠ "mse") :
    LSTM.init p0 nEpochs earlyStop batchSize lossName metricName
        optimizerName =
      Except.error (PyErr.notImplementedError
        ("optimizer " ++ optimizerName ++ " is not supported!")) ∧
    LSTM.lossF lossName pred label =
      Except.error (PyErr.valueError ("unknown loss `" ++ lossName ++ "`")) := by
  constructor
  · unfold LSTM.init
    rw [if_neg hopt1, if_neg hopt2]
  · unfold LSTM.lossF
    rw [if_neg hloss]

/-- Witness for C3 at the optimizer name `"sgd"` and loss name `"mae"`. -/
theorem LSTM.unsupported_config_errors_witness :
    (strLower "sgd" ≠ "adam" ∧ strLower "sgd" ≠ "gd" ∧ "mae" ≠ "mse") ∧
    (LSTM.init (0 : ℕ) 3 2 2 "mae" "" "sgd" =
       Except.error (PyErr.notImplementedError "optimizer sgd is not supported!") ∧
     LSTM.lossF "mae" [XVal.fin 1] [XVal.fin 2] =
       Except.error (PyErr.valueError "unknown loss `mae`")) :=
  ⟨⟨by decide, by decide, by decide⟩,
   LSTM.unsupported_config_errors (0 : ℕ) 3 2 2 "mae" "" "sgd"
     [XVal.fin 1] [XVal.fin 2] (by decide) (by decide) (by decide)⟩

/-- **C6.** The sequence model's output is the linear output layer applied
to the recurrent encoder's hidden state at the final time step only,
squeezed to one scalar prediction per sample: the per-sample outputs are
`fc_out` of the last hidden state, and any two models agreeing on the
output layer and on each sample's final hidden state produce identical
outputs (earlier time steps never reach the output layer). -/
theorem LSTMModel.forward_last_step_only (M M2 : LSTMModel)
    (x : List (List (List ℚ))) (hW : M.fcW = M2.fcW) (hB : M.fcB = M2.fcB)
    (hlast : ∀ s ∈ x, (M.rnn s).getLastD [] = (M2.rnn s).getLastD []) :
    M.forward x = x.map (fun s => M.forwardOne s) ∧ M.forward x = M2.forward x := by
  constructor
  · rfl
  · unfold LSTMModel.forward
    apply List.map_congr_left
    intro s hs
    rw [hlast s hs, hW, hB]

/-- **C7 (counterexample).** The claim as stated fails on the code: with
three test samples and batch size 2, matching index length and a fitted
model, the final batch holds a single sample, so its squeezed prediction
array is zero-dimensional and `np.concatenate` raises `ValueError` at
line 283 instead of returning the series. -/
theorem LSTM.predict_series_in_order_cex :
    LSTM.predict ({ demoModel with fitted := true } : LSTMS ℕ)
        (fun _ => { rnn := fun s => s, fcW := [], fcB := 0 })
        [[[1], [2]], [[3], [4]], [[5], [6]]] ([10, 20, 30] : List ℕ) =
      Except.error
        (PyErr.valueError "zero-dimensional arrays cannot be concatenated") ∧
    LSTM.predict ({ demoModel with fitted := true } : LSTMS ℕ)
        (fun _ => { rnn := fun s => s, fcW := [], fcB := 0 })
        [[[1], [2]], [[3], [4]], [[5], [6]]] ([10, 20, 30] : List ℕ) ≠
      Except.ok (([10, 20, 30] : List ℕ).zip
        (([[[1], [2]], [[3], [4]], [[5], [6]]] : List (List (List ℚ))).map
          fun s => (({ rnn := fun s => s, fcW := [], fcB := 0 } :
            LSTMModel)).forwardOne s)) := by
  have hch : chunkList 2 ([[[1], [2]], [[3], [4]], [[5], [6]]] :
      List (List (List ℚ))) = [[[[1], [2]], [[3], [4]]], [[[5], [6]]]] := by
    rw [chunkList_cons 2 (by decide)]
    rw [show List.drop 2 ([[[1], [2]], [[3], [4]], [[5], [6]]] :
      List (List (List ℚ))) = [[[5], [6]]] from rfl]
    rw [chunkList_cons 2 (by decide)]
    rw [show List.drop 2 ([[[5], [6]]] : List (List (List ℚ)))
      = [] from rfl]
    rw [chunkList_nil]
    rfl
  have h1 : LSTM.predict ({ demoModel with fitted := true } : LSTMS ℕ)
      (fun _ => { rnn := fun s => s, fcW := [], fcB := 0 })
      [[[1], [2]], [[3], [4]], [[5], [6]]] ([10, 20, 30] : List ℕ) =
      Except.error
        (PyErr.valueError "zero-dimensional arrays cannot be concatenated") := by
    simp only [LSTM.predict, demoModel, Bool.not_true, Bool.false_eq_true,
      if_false]
    rw [hch]
    rfl
  exact ⟨h1, by rw [h1]; simp⟩

/-- **C7 (amended).** Provided the test set is nonempty and every batch
holds at least two samples (so no squeezed per-batch prediction is
zero-dimensional and `np.concatenate` succeeds), `predict` returns a
series whose index is the test dataset's sample index and whose values are
the model's predictions concatenated over all batches in batch order: one
prediction per test sample, paired with the index in order. -/
theorem LSTM.predict_series_in_order {P I : Type} (m : LSTMS P)
    (toM : P → LSTMModel) (testData : List (List (List ℚ))) (index : List I)
    (hf : m.fitted = true) (hb : 0 < m.batchSize) (hne : testData ≠ [])
    (hbig : ∀ b ∈ chunkList m.batchSize testData, 2 ≤ b.length)
    (hlen : index.length = testData.length) :
    LSTM.predict m toM testData index =
      Except.ok (index.zip (testData.map fun s => (toM m.params).forwardOne s)) := by
  have hn0 : m.batchSize ≠ 0 := Nat.pos_iff_ne_zero.mp hb
  have hjoin :
      ((chunkList m.batchSize testData).map
        fun b => (toM m.params).forward b).flatten =
        testData.map fun s => (toM m.params).forwardOne s :=
    chunkList_map_flatten ((toM m.params).forwardOne) m.batchSize hb testData
  have hempty : ((chunkList m.batchSize testData).map
      fun b => (toM m.params).forward b).isEmpty = false := by
    cases hc : chunkList m.batchSize testData with
    | nil => exact absurd hc (chunkList_ne_nil _ hn0 _ hne)
    | cons c cs => simp
  have hany : ((chunkList m.batchSize testData).map
      fun b => (toM m.params).forward b).any (fun p => p.length == 1)
      = false := by
    rw [List.any_eq_false]
    intro p hp
    rcases List.mem_map.mp hp with ⟨b, hbmem, rfl⟩
    have h2 := hbig b hbmem
    simp only [LSTMModel.forward, List.length_map, beq_iff_eq]
    omega
  unfold LSTM.predict
  rw [hf]
  simp only [Bool.not_true, Bool.false_eq_true, if_false]
  rw [hempty]
  simp only [Bool.false_eq_true, if_false]
  rw [hany]
  simp only [Bool.false_eq_true, if_false]
  rw [hjoin]
  rw [if_pos (by simp [hlen])]

/-- Witness for the amended C7: four test samples, batch size 2, both
batches of size two, a model reading the last time step. -/
theorem LSTM.predict_series_in_order_witness :
    (({ demoModel with fitted := true } : LSTMS ℕ).fitted = true ∧
     0 < ({ demoModel with fitted := true } : LSTMS ℕ).batchSize ∧
     ([[[1], [2]], [[3], [4]], [[5], [6]], [[7], [8]]] :
       List (List (List ℚ))) ≠ [] ∧
     (∀ b ∈ chunkList ({ demoModel with fitted := true } : LSTMS ℕ).batchSize
         ([[[1], [2]], [[3], [4]], [[5], [6]], [[7], [8]]] :
           List (List (List ℚ))), 2 ≤ b.length) ∧
     ([10, 20, 30, 40] : List ℕ).length =
       ([[[1], [2]], [[3], [4]], [[5], [6]], [[7], [8]]] :
         List (List (List ℚ))).length) ∧
    LSTM.predict ({ demoModel with fitted := true } : LSTMS ℕ)
        (fun _ => { rnn := fun s => s, fcW := [], fcB := 0 })
        [[[1], [2]], [[3], [4]], [[5], [6]], [[7], [8]]]
        ([10, 20, 30, 40] : List ℕ) =
      Except.ok (([10, 20, 30, 40] : List ℕ).zip
        (([[[1], [2]], [[3], [4]], [[5], [6]], [[7], [8]]] :
            List (List (List ℚ))).map
          fun s => (({ rnn := fun s => s, fcW := [], fcB := 0 } :
            LSTMModel)).forwardOne s)) := by
  have hch : chunkList 2 ([[[1], [2]], [[3], [4]], [[5], [6]], [[7], [8]]] :
      List (List (List ℚ)))
      = [[[[1], [2]], [[3], [4]]], [[[5], [6]], [[7], [8]]]] := by
    rw [chunkList_cons 2 (by decide)]
    rw [show List.drop 2 ([[[1], [2]], [[3], [4]], [[5], [6]], [[7], [8]]] :
      List (List (List ℚ))) = [[[5], [6]], [[7], [8]]] from rfl]
    rw [chunkList_cons 2 (by decide)]
    rw [show List.drop 2 ([[[5], [6]], [[7], [8]]] : List (List (List ℚ)))
      = [] from rfl]
    rw [chunkList_nil]
    rfl
  have hbig : ∀ b ∈ chunkList 2
      ([[[1], [2]], [[3], [4]], [[5], [6]], [[7], [8]]] :
        List (List (List ℚ))), 2 ≤ b.length := by
    rw [hch]
    decide
  exact ⟨⟨rfl, by decide, by decide, hbig, rfl⟩,
    LSTM.predict_series_in_order ({ demoModel with fitted := true } : LSTMS ℕ)
      (fun _ => { rnn := fun s => s, fcW := [], fcB := 0 })
      [[[1], [2]], [[3], [4]], [[5], [6]], [[7], [8]]]
      ([10, 20, 30, 40] : List ℕ) rfl (by decide) (by decide) hbig rfl⟩

/-- **C4.** For equal-length prediction and label tensors, `loss_fn`
equals the mean squared error over the entries whose label is not `nan`,
and with the default metric setting `metric_fn` equals the negation of the
masked loss, restricted to the entries whose label is finite. -/
theorem LSTM.loss_metric_nan_masked (pred label : List XVal)
    (h : pred.length = label.length) :
    LSTM.lossF "mse" pred label = Except.ok (maskedMSE pred label) ∧
    LSTM.metricF "mse" "" pred label =
      Except.ok (finiteMaskedMSE pred label).neg := by
  have hzipN := boolMask_zip_filter (fun l => !l.isNan) pred label h
  have hzipF := boolMask_zip_filter XVal.isFinite pred label h
  constructor
  · unfold LSTM.lossF
    rw [if_pos rfl]
    unfold LSTM.mseV maskedMSE
    rw [hzipN]
  · have hlen1 : (boolMask pred (label.map XVal.isFinite)).length
        = (boolMask label (label.map XVal.isFinite)).length :=
      boolMask_length XVal.isFinite pred label h
    have hmask2 : ∀ b ∈ (boolMask label (label.map XVal.isFinite)).map
        (fun l => !l.isNan), b = true := by
      intro b hb
      rcases List.mem_map.mp hb with ⟨y, hy, rfl⟩
      have hfin := mem_boolMask_map XVal.isFinite label y hy
      cases y <;> simp [XVal.isNan, XVal.isFinite] at hfin ⊢
    have ha : boolMask (boolMask pred (label.map XVal.isFinite))
        ((boolMask label (label.map XVal.isFinite)).map fun l => !l.isNan)
        = boolMask pred (label.map XVal.isFinite) :=
      boolMask_all_true _ _ hmask2 (by simp [hlen1])
    have hbm : boolMask (boolMask label (label.map XVal.isFinite))
        ((boolMask label (label.map XVal.isFinite)).map fun l => !l.isNan)
        = boolMask label (label.map XVal.isFinite) :=
      boolMask_all_true _ _ hmask2 (by simp)
    unfold LSTM.metricF LSTM.lossF
    simp only [ha, hbm]
    rw [if_pos (by simp), if_pos trivial]
    unfold LSTM.mseV finiteMaskedMSE
    rw [hzipF]
    rfl

/-- Witness for C4 on tensors of length 3 with a `nan` and an infinite
label. -/
theorem LSTM.loss_metric_nan_masked_witness :
    ([XVal.fin 1, XVal.fin 2, XVal.nan] : List XVal).length =
      ([XVal.nan, XVal.pinf, XVal.fin 0] : List XVal).length ∧
    (LSTM.lossF "mse" [XVal.fin 1, XVal.fin 2, XVal.nan]
        [XVal.nan, XVal.pinf, XVal.fin 0] =
      Except.ok (maskedMSE [XVal.fin 1, XVal.fin 2, XVal.nan]
        [XVal.nan, XVal.pinf, XVal.fin 0]) ∧
     LSTM.metricF "mse" "" [XVal.fin 1, XVal.fin 2, XVal.nan]
        [XVal.nan, XVal.pinf, XVal.fin 0] =
      Except.ok (finiteMaskedMSE [XVal.fin 1, XVal.fin 2, XVal.nan]
        [XVal.nan, XVal.pinf, XVal.fin 0]).neg) :=
  ⟨rfl, LSTM.loss_metric_nan_masked [XVal.fin 1, XVal.fin 2, XVal.nan]
    [XVal.nan, XVal.pinf, XVal.fin 0] rfl⟩

/-- **C2.** `predict` on a freshly constructed model raises the
not-fitted `ValueError`; once `fit` has been called (whether or not it
completed without error), `predict` never raises this not-fitted error. -/
theorem LSTM.predict_requires_fit {P I : Type} (p0 : P)
    (nEpochs earlyStop batchSize : Nat) (lossName metricName optName : String)
    (st : LSTMS P) (toM : P → LSTMModel) (testData : List (List (List ℚ)))
    (index : List I) (O : EpochOracle P) (m : LSTMS P) (sp : Option String)
    (e : List XVal × List XVal)
    (hinit : LSTM.init p0 nEpochs earlyStop batchSize lossName metricName
      optName = Except.ok st) :
    LSTM.predict st toM testData index =
      Except.error (PyErr.valueError "model is not fitted yet!") ∧
    LSTM.predict (LSTM.fit O m sp e).1 toM testData index ≠
      Except.error (PyErr.valueError "model is not fitted yet!") := by
  constructor
  · have hfs : st.fitted = false := by
      unfold LSTM.init at hinit
      by_cases h1 : strLower optName = "adam"
      · rw [if_pos h1] at hinit
        injection hinit with h2
        rw [← h2]
      · rw [if_neg h1] at hinit
        by_cases h2 : strLower optName = "gd"
        · rw [if_pos h2] at hinit
          injection hinit with h3
          rw [← h3]
        · rw [if_neg h2] at hinit
          exact absurd hinit (by simp)
    unfold LSTM.predict
    rw [hfs]
    rfl
  · have hft : (LSTM.fit O m sp e).1.fitted = true := by
      rw [fit_unfold]
      cases bestParamBefore O m.params
        (epochsRun O m.params m.earlyStop m.nEpochs) <;> rfl
    unfold LSTM.predict
    rw [hft]
    simp only [Bool.not_true, Bool.false_eq_true, if_false]
    intro hcon
    split at hcon
    · injection hcon with h
      injection h with h2
      exact absurd h2 (by decide)
    · split at hcon
      · injection hcon with h
        injection h with h2
        exact absurd h2 (by decide)
      · split at hcon
        · exact absurd hcon (by simp)
        · injection hcon with h
          injection h

/-- **C10.** `fit` overwrites the caller-supplied `evals_result` entries:
the final `"train"`/`"valid"` lists do not depend on what the mapping held
on entry, they have equal length — the number of epochs actually executed,
itself at most `n_epochs` — and they hold the per-epoch train and
validation scores in epoch order. -/
theorem LSTM.fit_evals_result {P : Type} (O : EpochOracle P) (m : LSTMS P)
    (sp : Option String) (e e2 : List XVal × List XVal) :
    (LSTM.fit O m sp e).2.1 = (LSTM.fit O m sp e2).2.1 ∧
    (LSTM.fit O m sp e).2.1.1 =
      (List.range (epochsRun O m.params m.earlyStop m.nEpochs)).map
        (trainScoreAt O m.params) ∧
    (LSTM.fit O m sp e).2.1.2 =
      (List.range (epochsRun O m.params m.earlyStop m.nEpochs)).map
        (valScoreAt O m.params) ∧
    (LSTM.fit O m sp e).2.1.1.length = (LSTM.fit O m sp e).2.1.2.length ∧
    (LSTM.fit O m sp e).2.1.2.length =
      epochsRun O m.params m.earlyStop m.nEpochs ∧
    epochsRun O m.params m.earlyStop m.nEpochs ≤ m.nEpochs := by
  have h1 : (LSTM.fit O m sp e).2.1 =
      ((List.range (epochsRun O m.params m.earlyStop m.nEpochs)).map
         (trainScoreAt O m.params),
       (List.range (epochsRun O m.params m.earlyStop m.nEpochs)).map
         (valScoreAt O m.params)) := by
    rw [fit_unfold]
    cases bestParamBefore O m.params
      (epochsRun O m.params m.earlyStop m.nEpochs) <;> rfl
  refine ⟨rfl, ?_, ?_, ?_, ?_, ?_⟩
  · rw [h1]
  · rw [h1]
  · rw [h1]; simp
  · rw [h1]; simp
  · have := runEndFrom_le O m.params m.earlyStop m.nEpochs 0
    simpa [epochsRun] using this

/-- **C9.** If no executed epoch can achieve a validation score strictly
greater than `-inf` (in particular when `n_epochs = 0` or every epoch's
validation score is `nan`), `fit` dies with `UnboundLocalError` when it
tries to restore the never-assigned `best_param`. -/
theorem LSTM.fit_unbound_best_param {P : Type} (O : EpochOracle P)
    (m : LSTMS P) (sp : Option String) (e : List XVal × List XVal)
    (h : ∀ t, t < m.nEpochs →
      (valScoreAt O m.params t).gt XVal.ninf = false) :
    (LSTM.fit O m sp e).2.2 = Except.error PyErr.unboundLocalError := by
  have hE : epochsRun O m.params m.earlyStop m.nEpochs ≤ m.nEpochs := by
    have := runEndFrom_le O m.params m.earlyStop m.nEpochs 0
    simpa [epochsRun] using this
  have hnone := (bestParamBefore_none O m.params
    (epochsRun O m.params m.earlyStop m.nEpochs)
    (fun u hu => h u (Nat.lt_of_lt_of_le hu hE))).2
  rw [fit_unfold, hnone]

/-- Witness for C9: a run whose validation score is `nan` in every epoch
never binds `best_param`, and `fit` fails. -/
theorem LSTM.fit_unbound_best_param_witness :
    (∀ t, t < nanModel.nEpochs →
      (valScoreAt nanOracle nanModel.params t).gt XVal.ninf = false) ∧
    (LSTM.fit nanOracle nanModel none ([], [])).2.2 =
      Except.error PyErr.unboundLocalError :=
  ⟨fun _ _ => rfl,
   LSTM.fit_unbound_best_param nanOracle nanModel none ([], [])
     (fun _ _ => rfl)⟩

/-- **C8.** The `save_path` argument of `fit` has no effect: two calls
differing only in `save_path` behave identically, and whenever `fit`
persists a checkpoint it is written to the one hard-coded filesystem
path. -/
theorem LSTM.fit_save_path_ignored {P : Type} (O : EpochOracle P)
    (m : LSTMS P) (sp1 sp2 : Option String) (e : List XVal × List XVal) :
    LSTM.fit O m sp1 e = LSTM.fit O m sp2 e ∧
    ∀ r, (LSTM.fit O m sp1 e).2.2 = Except.ok r →
      r.savedPath = checkpointPath := by
  constructor
  · rfl
  · intro r h
    rw [fit_unfold] at h
    cases hbp : bestParamBefore O m.params
        (epochsRun O m.params m.earlyStop m.nEpochs) with
    | none => rw [hbp] at h; exact absurd h (by simp)
    | some bp =>
        rw [hbp] at h
        injection h with h2
        rw [← h2]

/-- Witness for C8: the demo run saves to the hard-coded path whatever
`save_path` was passed. -/
theorem LSTM.fit_save_path_ignored_witness :
    (LSTM.fit demoOracle demoModel (some "elsewhere.pkl") ([], [])).2.2 =
      Except.ok demoFitResult ∧
    demoFitResult.savedPath = checkpointPath := by
  have h : (LSTM.fit demoOracle demoModel (some "elsewhere.pkl")
      ([], [])).2.2 = Except.ok demoFitResult := rfl
  exact ⟨h, (LSTM.fit_save_path_ignored demoOracle demoModel
    (some "elsewhere.pkl") none ([], [])).2 demoFitResult h⟩

/-- **C1.** When `fit` returns normally, the parameters deep-copied at the
epoch with the best validation score are reloaded into the live model, and
that same snapshot is what is persisted to the module's checkpoint output
file: the live parameters, the saved parameters and the snapshot taken
right after the best epoch's training pass coincide, the best epoch's
recorded validation score is the best score, no recorded validation score
beats it, and the checkpoint goes to the module's output file. -/
theorem LSTM.fit_restores_and_saves_best {P : Type} (O : EpochOracle P)
    (m : LSTMS P) (sp : Option String) (e : List XVal × List XVal)
    (r : FitResult P) (h : (LSTM.fit O m sp e).2.2 = Except.ok r) :
    (LSTM.fit O m sp e).1.params = r.liveParams ∧
    r.liveParams = r.savedParams ∧
    r.savedParams = paramsAt O m.params (r.bestEpoch + 1) ∧
    r.evalsValid[r.bestEpoch]? = some r.bestScore ∧
    (∀ v ∈ r.evalsValid, v.gt r.bestScore = false) ∧
    r.savedPath = checkpointPath := by
  rw [fit_unfold] at h ⊢
  cases hbp : bestParamBefore O m.params
      (epochsRun O m.params m.earlyStop m.nEpochs) with
  | none =>
      rw [hbp] at h
      exact absurd h (by simp)
  | some bp =>
      rw [hbp] at h
      injection h with h2
      rw [← h2]
      obtain ⟨h3, h4, h5⟩ := bestParamBefore_spec O m.params
        (epochsRun O m.params m.earlyStop m.nEpochs) bp hbp
      refine ⟨rfl, rfl, h3, ?_, ?_, rfl⟩
      · show ((List.range (epochsRun O m.params m.earlyStop m.nEpochs)).map
          (valScoreAt O m.params))[bestEpochBefore O m.params
            (epochsRun O m.params m.earlyStop m.nEpochs)]? = _
        rw [List.getElem?_map, List.getElem?_range h4]
        simp [h5]
      · intro v hv
        rcases List.mem_map.mp hv with ⟨u, hu, rfl⟩
        exact valScore_not_gt_bestBefore O m.params
          (epochsRun O m.params m.earlyStop m.nEpochs) u (List.mem_range.mp hu)

/-- Witness for C1 on the demo run: the best epoch is the last (index 2),
its snapshot (counter 3) is reloaded and saved. -/
theorem LSTM.fit_restores_and_saves_best_witness :
    (LSTM.fit demoOracle demoModel none ([], [])).2.2 =
      Except.ok demoFitResult ∧
    ((LSTM.fit demoOracle demoModel none ([], [])).1.params =
       demoFitResult.liveParams ∧
     demoFitResult.liveParams = demoFitResult.savedParams ∧
     demoFitResult.savedParams =
       paramsAt demoOracle demoModel.params (demoFitResult.bestEpoch + 1) ∧
     demoFitResult.evalsValid[demoFitResult.bestEpoch]? =
       some demoFitResult.bestScore ∧
     (∀ v ∈ demoFitResult.evalsValid,
       v.gt demoFitResult.bestScore = false) ∧
     demoFitResult.savedPath = checkpointPath) :=
  ⟨rfl, LSTM.fit_restores_and_saves_best demoOracle demoModel none ([], [])
    demoFitResult rfl⟩

/-- **C5.** With a positive `early_stop` budget, training halts early
exactly when the validation score has failed to improve on the best score
seen so far for `early_stop` consecutive epochs (`stopBefore` is the
running count of consecutive non-improving epochs, reset to zero by any
epoch whose score strictly exceeds the best): the number of executed
epochs never exceeds `n_epochs`, and either no prefix of the run ever
accumulated `early_stop` consecutive non-improvements and the full budget
ran, or the run stopped at the first epoch whose trailing non-improvement
count reached `early_stop`. -/
theorem LSTM.fit_early_stopping {P : Type} (O : EpochOracle P)
    (m : LSTMS P) (sp : Option String) (e : List XVal × List XVal)
    (h : 0 < m.earlyStop) :
    (LSTM.fit O m sp e).2.1.2.length ≤ m.nEpochs ∧
    (((LSTM.fit O m sp e).2.1.2.length = m.nEpochs ∧
       ∀ t, t < (LSTM.fit O m sp e).2.1.2.length →
         stopBefore O m.params (t + 1) < m.earlyStop) ∨
     (m.earlyStop ≤
        stopBefore O m.params (LSTM.fit O m sp e).2.1.2.length ∧
      ∀ t, t + 1 < (LSTM.fit O m sp e).2.1.2.length →
        stopBefore O m.params (t + 1) < m.earlyStop)) := by
  have hlen : (LSTM.fit O m sp e).2.1.2.length =
      epochsRun O m.params m.earlyStop m.nEpochs := by
    rw [fit_unfold]
    cases bestParamBefore O m.params
      (epochsRun O m.params m.earlyStop m.nEpochs) <;> simp
  rw [hlen]
  have hE : epochsRun O m.params m.earlyStop m.nEpochs ≤ m.nEpochs := by
    have := runEndFrom_le O m.params m.earlyStop m.nEpochs 0
    simpa [epochsRun] using this
  refine ⟨hE, ?_⟩
  have hnh : ∀ t, t + 1 < epochsRun O m.params m.earlyStop m.nEpochs →
      stopBefore O m.params (t + 1) < m.earlyStop := by
    intro t ht
    have h2 := runEndFrom_not_halted O m.params m.earlyStop m.nEpochs 0 t
      (Nat.zero_le t) ht
    rw [haltedAt_eq O m.params h t] at h2
    simp only [decide_eq_false_iff_not, Nat.not_le] at h2
    exact h2
  rcases Nat.eq_zero_or_pos (epochsRun O m.params m.earlyStop m.nEpochs)
    with hE0 | hEpos
  · rcases runEndFrom_last O m.params m.earlyStop m.nEpochs 0 with heq | hlt
    · left
      constructor
      · rw [epochsRun, heq]; omega
      · intro t ht; rw [hE0] at ht; omega
    · rw [epochsRun] at hE0; omega
  · cases hhl : haltedAt O m.params m.earlyStop
        (epochsRun O m.params m.earlyStop m.nEpochs - 1) with
    | true =>
        right
        refine ⟨?_, hnh⟩
        rw [haltedAt_eq O m.params h] at hhl
        simp only [decide_eq_true_eq] at hhl
        rwa [Nat.sub_add_cancel hEpos] at hhl
    | false =>
        left
        constructor
        · rcases runEndFrom_last O m.params m.earlyStop m.nEpochs 0
            with heq | ⟨_, hh⟩
          · rw [epochsRun, heq]; omega
          · rw [epochsRun] at hhl
            rw [hh] at hhl
            exact absurd hhl (by simp)
        · intro t ht
          rcases Nat.lt_or_ge (t + 1)
              (epochsRun O m.params m.earlyStop m.nEpochs) with h2 | h2
          · exact hnh t h2
          · have ht2 : t = epochsRun O m.params m.earlyStop m.nEpochs - 1 := by
              omega
            subst ht2
            rw [haltedAt_eq O m.params h] at hhl
            simp only [decide_eq_false_iff_not, Nat.not_le] at hhl
            exact hhl

/-- Witness for C5 on the demo run (`early_stop = 2`, every epoch
improves, all 3 budgeted epochs run). -/
theorem LSTM.fit_early_stopping_witness :
    0 < demoModel.earlyStop ∧
    ((LSTM.fit demoOracle demoModel none ([], [])).2.1.2.length ≤
       demoModel.nEpochs ∧
     (((LSTM.fit demoOracle demoModel none ([], [])).2.1.2.length =
         demoModel.nEpochs ∧
        ∀ t, t < (LSTM.fit demoOracle demoModel none ([], [])).2.1.2.length →
          stopBefore demoOracle demoModel.params (t + 1) <
            demoModel.earlyStop) ∨
      (demoModel.earlyStop ≤ stopBefore demoOracle demoModel.params
          (LSTM.fit demoOracle demoModel none ([], [])).2.1.2.length ∧
       ∀ t, t + 1 <
           (LSTM.fit demoOracle demoModel none ([], [])).2.1.2.length →
         stopBefore demoOracle demoModel.params (t + 1) <
           demoModel.earlyStop))) :=
  ⟨by decide,
   LSTM.fit_early_stopping demoOracle demoModel none ([], []) (by decide)⟩

/-- Witness for C2: a freshly initialised model rejects `predict`, and
after `fit` the guard passes. -/
theorem LSTM.predict_requires_fit_witness :
    LSTM.init (0 : ℕ) 3 2 2 "mse" "" "adam" = Except.ok demoModel ∧
    (LSTM.predict demoModel
        (fun _ => { rnn := fun s => s, fcW := [], fcB := 0 })
        [[[1]]] ([0] : List ℕ) =
       Except.error (PyErr.valueError "model is not fitted yet!") ∧
     LSTM.predict (LSTM.fit demoOracle demoModel none ([], [])).1
        (fun _ => { rnn := fun s => s, fcW := [], fcB := 0 })
        [[[1]]] ([0] : List ℕ) ≠
       Except.error (PyErr.valueError "model is not fitted yet!")) :=
  ⟨rfl,
   LSTM.predict_requires_fit (0 : ℕ) 3 2 2 "mse" "" "adam" demoModel
     (fun _ => { rnn := fun s => s, fcW := [], fcB := 0 })
     [[[1]]] ([0] : List ℕ) demoOracle demoModel none ([], []) rfl⟩

/-- Witness for C6: two encoders differing at the first time step but
agreeing at the final one produce the same outputs. -/
theorem LSTMModel.forward_last_step_only_witness :
    (({ rnn := fun _ => [[1], [2]], fcW := [5], fcB := 7 } : LSTMModel).fcW =
       ({ rnn := fun _ => [[3], [2]], fcW := [5], fcB := 7 } : LSTMModel).fcW ∧
     ({ rnn := fun _ => [[1], [2]], fcW := [5], fcB := 7 } : LSTMModel).fcB =
       ({ rnn := fun _ => [[3], [2]], fcW := [5], fcB := 7 } : LSTMModel).fcB ∧
     ∀ s ∈ ([[[0]]] : List (List (List ℚ))),
       ((({ rnn := fun _ => [[1], [2]], fcW := [5], fcB := 7 } :
           LSTMModel).rnn s).getLastD []) =
       ((({ rnn := fun _ => [[3], [2]], fcW := [5], fcB := 7 } :
           LSTMModel).rnn s).getLastD [])) ∧
    (({ rnn := fun _ => [[1], [2]], fcW := [5], fcB := 7 } :
        LSTMModel).forward [[[0]]] =
       ([[[0]]] : List (List (List ℚ))).map
         (fun s => ({ rnn := fun _ => [[1], [2]], fcW := [5], fcB := 7 } :
           LSTMModel).forwardOne s) ∧
     ({ rnn := fun _ => [[1], [2]], fcW := [5], fcB := 7 } :
        LSTMModel).forward [[[0]]] =
       ({ rnn := fun _ => [[3], [2]], fcW := [5], fcB := 7 } :
          LSTMModel).forward [[[0]]]) :=
  ⟨⟨rfl, rfl, fun _ _ => rfl⟩,
   LSTMModel.forward_last_step_only
     { rnn := fun _ => [[1], [2]], fcW := [5], fcB := 7 }
     { rnn := fun _ => [[3], [2]], fcW := [5], fcB := 7 }
     [[[0]]] rfl rfl (fun _ _ => rfl)⟩
